import Mathlib

/-!
Verification of the simplx actor-runtime specification against its source.

The repository fragment contains the Linux platform layer
(`src/include/trz/engine/internal/linux/platform_gcc.h`) and the build
configuration listing the core files (`actor.cpp`, `engine.cpp`, `node.cpp`,
`RefMapper.cpp`), whose bodies are not in the fragment.  Platform-layer
functions are embedded directly from the header; the scheduling / registry
core is modelled from the specification, as flagged on each definition.

Conventions of the shallow embedding:
* A C++ function that can throw is embedded as a Lean function from the
  observable inputs (OS return codes, clock readings, ...) to a result type
  recording either normal return or the raised exception.
* `PResult.raised (some cc)` records a `RunTimeException` constructed with
  `systemErrorToString(cc)` (the system error text for code `cc`);
  `PResult.raised none` records a `RunTimeException` built without any
  system error text.
* Machine integers are embedded as `Int`.  In every function below the
  values reachable from the C types (error codes, `timespec` fields fed by
  the OS, the 64-bit nanosecond content of `Time`) stay far inside the
  64-bit range, so two's-complement wrap-around is unreachable and is not
  modelled.
-/

namespace Simplx

/-- Linux errno value `EBUSY`. -/
def EBUSY : Int := 16

/-- Linux errno value `ETIMEDOUT`. -/
def ETIMEDOUT : Int := 110

/-- Linux errno value `ENOMEM`. -/
def ENOMEM : Int := 12

/-- Linux clockid value `CLOCK_MONOTONIC`. -/
def CLOCK_MONOTONIC : Int := 1

/-- Outcome of a platform call that either returns a value of type `α` or
throws `RunTimeException`.  The payload of `raised` is `some cc` when the
exception carries `systemErrorToString(cc)`, and `none` when the exception
is constructed from file and line only. -/
inductive PResult (α : Type) where
  | ok : α → PResult α
  | raised : Option Int → PResult α
deriving DecidableEq

/-- Embedding of `mutexDestroy` (platform_gcc.h:201-208): a nonzero
`pthread_mutex_destroy` return code `cc` throws `RunTimeException` carrying
`systemErrorToString(cc)`. -/
def mutexDestroy (cc : Int) : PResult Unit :=
  if cc ≠ 0 then .raised (some cc) else .ok ()

/-- Embedding of `mutexLock` (platform_gcc.h:210-217): a nonzero
`pthread_mutex_lock` return code throws with the system error text. -/
def mutexLock (cc : Int) : PResult Unit :=
  if cc ≠ 0 then .raised (some cc) else .ok ()

/-- Embedding of `mutexUnlock` (platform_gcc.h:233-240): a nonzero
`pthread_mutex_unlock` return code throws with the system error text. -/
def mutexUnlock (cc : Int) : PResult Unit :=
  if cc ≠ 0 then .raised (some cc) else .ok ()

/-- Embedding of `mutexTryLock` (platform_gcc.h:219-231).  `cc` is the
`pthread_mutex_trylock` return code; the source computes
`success = (cc == 0)`, returns `success` when `success || cc == EBUSY`,
and otherwise throws with `systemErrorToString(cc)`. -/
def mutexTryLock (cc : Int) : PResult Bool :=
  let success : Bool := cc == 0
  if success || cc == EBUSY then .ok success
  else .raised (some cc)

/-- Embedding of `mutexSignalCreate` (platform_gcc.h:242-250): a nonzero
`pthread_cond_init` return code throws `RunTimeException(__FILE__, __LINE__)`
with no system error text. -/
def mutexSignalCreate (cc : Int) : PResult Unit :=
  if cc ≠ 0 then .raised none else .ok ()

/-- Embedding of `mutexSignalDestroy` (platform_gcc.h:252-258): a nonzero
`pthread_cond_destroy` return code throws `RunTimeException(__FILE__, __LINE__)`
with no system error text. -/
def mutexSignalDestroy (cc : Int) : PResult Unit :=
  if cc ≠ 0 then .raised none else .ok ()

/-- Whether a platform-call outcome is a raised `RunTimeException` that
carries the underlying system error text. -/
def raisedWithErrorText : PResult Unit → Bool
  | .raised (some _) => true
  | _ => false

/-- Modelled from the spec: the `Time` class of
`trz/engine/internal/time.h` is included by the header but its body is not
in the fragment.  Per the spec a `Time` is a duration with a seconds part
and a nanoseconds part, read back by `extractSeconds` and
`extractNanoseconds`. -/
structure Time where
  sec : Int
  nsec : Int
deriving DecidableEq

/-- Modelled from the spec: seconds part of a `Time`. -/
def Time.extractSeconds (t : Time) : Int := t.sec

/-- Modelled from the spec: nanoseconds part of a `Time`. -/
def Time.extractNanoseconds (t : Time) : Int := t.nsec

/-- A `struct timespec` as filled in by the platform layer. -/
structure Timespec where
  tv_sec : Int
  tv_nsec : Int
deriving DecidableEq

/-- Deadline computation of the timed `mutexSignalWait` overload
(platform_gcc.h:270-273), transcribed statement by statement:
`tout.tv_nsec = timeOut.ns + epoch.ns;`
`tout.tv_sec = timeOut.s + epoch.s + tout.tv_nsec / 1000000000;`
`tout.tv_nsec %= 1000000000;`.
Lean's `/` and `%` on `Int` agree with the C operators on the non-negative
nanosecond sums arising when both components lie in `[0, 1e9)`. -/
def timedWaitDeadline (pTimeOut currentEpochTime : Time) : Timespec :=
  let n := pTimeOut.extractNanoseconds + currentEpochTime.extractNanoseconds
  let s := pTimeOut.extractSeconds + currentEpochTime.extractSeconds + n / 1000000000
  { tv_sec := s, tv_nsec := n % 1000000000 }

/-- Embedding of the timed `mutexSignalWait` overload
(platform_gcc.h:268-279).  The C++ signature takes the timeout duration and
a separately captured epoch time (defaulted to `timeGetEpoch()`); the body
combines them into the `timespec` deadline handed to
`pthread_cond_timedwait`, whose return code is `cc`.  The first component
records that deadline; the second the control-flow outcome: the source
throws (without error text) iff `cc != 0 && cc != ETIMEDOUT`. -/
def mutexSignalWaitTimed (pTimeOut currentEpochTime : Time) (cc : Int) :
    Timespec × PResult Unit :=
  (timedWaitDeadline pTimeOut currentEpochTime,
   if cc ≠ 0 ∧ cc ≠ ETIMEDOUT then .raised none else .ok ())

/-- Embedding of `HighResolutionTime::operator()` (platform_gcc.h:88-96).
`gettime` stands for `clock_gettime`: applied to a clock id it yields the
return code and the `timespec` it filled in.  The operator queries
`CLOCK_MONOTONIC`, throws `RunTimeException` (no error text) when the
return code is nonzero, and otherwise returns
`Time(tv_sec * 1000000000 + tv_nsec)` as a total-nanosecond count. -/
def highResolutionTime (gettime : Int → Int × Timespec) : PResult Int :=
  let r := gettime CLOCK_MONOTONIC
  if r.1 ≠ 0 then .raised none
  else .ok (r.2.tv_sec * 1000000000 + r.2.tv_nsec)

/-- Outcome of `alignMalloc`: the returned pointer, a thrown
`std::bad_alloc`, or a thrown `RunTimeException`. -/
inductive AllocResult where
  | ok : Int → AllocResult
  | badAlloc : AllocResult
  | rtException : AllocResult
deriving DecidableEq

/-- Embedding of `alignMalloc` (platform_gcc.h:144-157).  `cc` is the
`posix_memalign` return code and `ret` the pointer it stored: on
`cc != 0` the source throws `RunTimeException` unless `cc == ENOMEM`, in
which case it throws `std::bad_alloc`; on success it returns `ret`. -/
def alignMalloc (cc : Int) (ret : Int) : AllocResult :=
  if cc ≠ 0 then
    if cc ≠ ENOMEM then .rtException
    else .badAlloc
  else .ok ret

/-- Modelled from the spec: `RefMapper.cpp` is listed in the build
configuration but its body is not in the fragment.  Per spec §4.1 / §3 the
Reference Registry is a table of entries `(ActorId, liveness flag)` guarded
by one exclusion mechanism (the owning-Worker field is irrelevant to
resolution and omitted), and actor ids are allocated fresh and never
reused, modelled by the `nextId` counter. -/
structure RefMapper where
  nextId : Nat
  entries : List (Nat × Bool)
deriving DecidableEq

/-- The empty registry. -/
def RefMapper.empty : RefMapper := ⟨0, []⟩

/-- Modelled from the spec: `register(actor) -> ActorId` allocates a fresh
id, inserts a live entry and returns the id. -/
def registerActor (r : RefMapper) : RefMapper × Nat :=
  (⟨r.nextId + 1, (r.nextId, true) :: r.entries⟩, r.nextId)

/-- Modelled from the spec: `invalidate(id)` clears the liveness flag of
the entry for `id`. -/
def invalidate (r : RefMapper) (id : Nat) : RefMapper :=
  ⟨r.nextId, r.entries.map (fun p => if p.1 = id then (p.1, false) else p)⟩

/-- Result of `resolve`: a live handle for the id, or NotFound. -/
inductive Resolved where
  | live : Nat → Resolved
  | NotFound : Resolved
deriving DecidableEq

/-- Modelled from the spec: `resolve(id)` looks the entry up; a live entry
yields a handle, a missing entry or a cleared liveness flag yields
NotFound. -/
def resolve (r : RefMapper) (id : Nat) : Resolved :=
  match r.entries.find? (fun p => p.1 == id) with
  | some (_, true) => .live id
  | _ => .NotFound

/-- A registry mutation issued by some thread; the registry's single
exclusion mechanism serializes them, so an arbitrary interleaving of
operations from all threads is an arbitrary list of `RegOp`s. -/
inductive RegOp where
  | opRegister : RegOp
  | opInvalidate : Nat → RegOp
deriving DecidableEq

/-- Apply one serialized registry operation. -/
def applyOp (r : RefMapper) : RegOp → RefMapper
  | .opRegister => (registerActor r).1
  | .opInvalidate id => invalidate r id

/-- Run a serialized sequence of registry operations. -/
def runOps (ops : List RegOp) (r : RefMapper) : RefMapper :=
  ops.foldl applyOp r

/-- Well-formedness of a registry: every entry's id was allocated by the
fresh-id counter. -/
def wf (r : RefMapper) : Prop := ∀ p ∈ r.entries, p.1 < r.nextId

/-- `id` is dead in `r`: every entry for it has its liveness flag cleared. -/
def deadAt (r : RefMapper) (id : Nat) : Prop :=
  ∀ p ∈ r.entries, p.1 = id → p.2 = false

/-- Modelled from the spec: worker states of the Node run loop
(`node.cpp` is not in the fragment), per spec §4.3. -/
inductive WState where
  | Idle : WState
  | Running : WState
  | Draining : WState
  | Stopped : WState
deriving DecidableEq

/-- Modelled from the spec: a Worker owns a thread (its lifecycle summarized
by `wstate`; `Stopped` means the thread has exited and been joined) and the
set of actors scheduled on it, identified by their registry ids. -/
structure Worker where
  wstate : WState
  actors : List Nat
deriving DecidableEq

/-- Modelled from the spec: the Engine owns the set of Workers and the
Reference Registry. -/
structure Engine where
  workers : List Worker
  registry : RefMapper
deriving DecidableEq

/-- Invalidate a list of actor ids in order. -/
def invAll (r : RefMapper) (ids : List Nat) : RefMapper :=
  ids.foldl invalidate r

/-- Modelled from the spec: the drain phase of `Engine.stop()` — each
Worker, while draining toward `Stopped`, invalidates each of its actors in
the Reference Registry before releasing them. -/
def drainRegistry (e : Engine) : RefMapper :=
  e.workers.foldl (fun r w => invAll r w.actors) e.registry

/-- Modelled from the spec: `Engine.stop()` — signals every Worker to enter
`Draining`, waits for every Worker to reach `Stopped` (threads joined, all
owned actors invalidated and released), then destroys the Reference
Registry, which afterwards holds no entries (the fresh-id counter survives
so ids are never reused). -/
def stopEngine (e : Engine) : Engine :=
  ⟨e.workers.map (fun _ => ⟨WState.Stopped, []⟩),
   ⟨(drainRegistry e).nextId, []⟩⟩

/-- Modelled from the spec: instantaneous state of the scheduler across all
Workers (`node.cpp` / `actor.cpp` are not in the fragment).  `owner` maps an
actor id to the Worker owning it; `executing` maps a Worker (one OS thread)
to the actor whose `processOne` it is currently running, if any; `counter`
is the spec's per-actor instrumentation counter incremented on entry to
`processOne` and decremented on exit. -/
structure SchedState where
  owner : Nat → Option Nat
  executing : Nat → Option Nat
  counter : Nat → Nat

/-- Modelled from the spec: the atomic transitions of the scheduler.  An
actor is spawned onto a Worker (ids are fresh, never reassigned); a Worker
— a single sequential thread, hence not already inside `processOne` — may
begin `processOne` only for an actor it owns; a Worker inside `processOne`
may finish it.  Interleaving of these steps models concurrent threads. -/
inductive SchedStep : SchedState → SchedState → Prop where
  | spawn (s : SchedState) (a w : Nat) (h : s.owner a = none) :
      SchedStep s ⟨Function.update s.owner a (some w), s.executing, s.counter⟩
  | beginProcess (s : SchedState) (w a : Nat) (hown : s.owner a = some w)
      (hidle : s.executing w = none) :
      SchedStep s ⟨s.owner, Function.update s.executing w (some a),
        Function.update s.counter a (s.counter a + 1)⟩
  | endProcess (s : SchedState) (w a : Nat) (hrun : s.executing w = some a) :
      SchedStep s ⟨s.owner, Function.update s.executing w none,
        Function.update s.counter a (s.counter a - 1)⟩

/-- The scheduler's initial state: no actor spawned, no thread inside
`processOne`, all instrumentation counters zero. -/
def SchedState.init : SchedState := ⟨fun _ => none, fun _ => none, fun _ => 0⟩

/-- States reachable from the initial scheduler state by atomic steps. -/
inductive Reachable : SchedState → Prop where
  | base : Reachable SchedState.init
  | step {s s' : SchedState} : Reachable s → SchedStep s s' → Reachable s'

/-- Exclusion invariant: each actor is either not being executed (counter
zero, no thread inside its `processOne`) or being executed by exactly its
unique owning Worker (counter one). -/
def ExclInv (s : SchedState) : Prop :=
  ∀ a : Nat,
    (s.counter a = 0 ∧ ∀ w, s.executing w ≠ some a) ∨
    (s.counter a = 1 ∧ ∃ w, s.owner a = some w ∧ s.executing w = some a ∧
      ∀ w', s.executing w' = some a → w' = w)

/-- Modelled from the spec: an actor's mailbox (`actor.cpp` is not in the
fragment) — the ordered queue of pending events, together with the trace of
events whose handlers have already executed, in execution order. -/
structure Mailbox where
  pending : List Nat
  handled : List Nat
deriving DecidableEq

/-- The empty mailbox. -/
def Mailbox.empty : Mailbox := ⟨[], []⟩

/-- Modelled from the spec: `deliver(event)` appends the event to the
mailbox. -/
def deliver (m : Mailbox) (e : Nat) : Mailbox :=
  ⟨m.pending ++ [e], m.handled⟩

/-- Modelled from the spec: `processOne()` executes exactly one pending
event's handler — the oldest — and returns whether more events remain. -/
def processOne (m : Mailbox) : Mailbox × Bool :=
  match m.pending with
  | [] => (m, false)
  | e :: rest => (⟨rest, m.handled ++ [e]⟩, !rest.isEmpty)

/-- Enqueue a sequence of events in order. -/
def deliverAll (m : Mailbox) (es : List Nat) : Mailbox :=
  es.foldl deliver m

/-- Call `processOne` `n` times. -/
def processN (m : Mailbox) : Nat → Mailbox
  | 0 => m
  | n + 1 => processN (processOne m).1 n

/-!
Theorems.  Claim theorems are marked with their claim ids; the lemmas
before them are shared infrastructure.
-/

/-- C5: `mutexTryLock` distinguishes exactly three outcomes — it returns
true when `pthread_mutex_trylock` returns 0, returns false when it returns
`EBUSY`, and raises `RunTimeException` (carrying the system error text) for
every other nonzero return code, never mapping such a code to a boolean. -/
theorem mutexTryLock_trichotomy (cc : Int) :
    mutexTryLock 0 = .ok true ∧
    mutexTryLock EBUSY = .ok false ∧
    (cc ≠ 0 → cc ≠ EBUSY → mutexTryLock cc = .raised (some cc)) := by
  refine ⟨by decide, by decide, fun h1 h2 => ?_⟩
  simp only [mutexTryLock, EBUSY] at *
  simp [h1, h2]

/-- C5 witness: `pthread_mutex_trylock` returning `EDEADLK` (35) raises
with the system error text. -/
theorem mutexTryLock_trichotomy_witness :
    mutexTryLock 35 = .raised (some 35) :=
  (mutexTryLock_trichotomy 35).2.2 (by decide) (by decide)

/-- C6: the deadline-bearing `mutexSignalWait` overload returns normally
both on success (0) and on timeout (`ETIMEDOUT`), raises only for other
return codes, and the deadline it hands to `pthread_cond_timedwait` is
computed by combining the timeout duration with the separately captured
epoch time — changing the epoch changes the deadline, so the timeout
argument is not an absolute timestamp. -/
theorem mutexSignalWaitTimed_outcomes (t e : Time) (cc : Int) :
    (mutexSignalWaitTimed t e ETIMEDOUT).2 = .ok () ∧
    (mutexSignalWaitTimed t e 0).2 = .ok () ∧
    (cc ≠ 0 → cc ≠ ETIMEDOUT → (mutexSignalWaitTimed t e cc).2 = .raised none) ∧
    (mutexSignalWaitTimed t e cc).1 = timedWaitDeadline t e ∧
    timedWaitDeadline t e ≠ timedWaitDeadline t ⟨e.sec + 1, e.nsec⟩ := by
  refine ⟨?_, ?_, fun h1 h2 => ?_, rfl, fun hcontra => ?_⟩
  · simp [mutexSignalWaitTimed]
  · simp [mutexSignalWaitTimed]
  · simp [mutexSignalWaitTimed, h1, h2]
  · have h := congrArg Timespec.tv_sec hcontra
    simp only [timedWaitDeadline, Time.extractSeconds, Time.extractNanoseconds] at h
    omega

/-- C6 witness: at concrete times, a `pthread_cond_timedwait` return code of
`EINVAL` (22) raises, while `ETIMEDOUT` returns normally. -/
theorem mutexSignalWaitTimed_outcomes_witness :
    (mutexSignalWaitTimed ⟨1, 2⟩ ⟨3, 4⟩ 22).2 = .raised none :=
  (mutexSignalWaitTimed_outcomes ⟨1, 2⟩ ⟨3, 4⟩ 22).2.2.1 (by decide) (by decide)

/-- C7 counterexample: with failing return code `EINVAL` (22),
`mutexSignalCreate` raises `RunTimeException` without the system error
text, unlike `mutexDestroy` on the same code — refuting the claim that the
condition-variable create/destroy wrappers report failures with the system
error text just as the mutex wrappers do. -/
theorem mutexSignalCreate_lacks_error_text :
    raisedWithErrorText (mutexSignalCreate 22) = false ∧
    raisedWithErrorText (mutexSignalDestroy 22) = false ∧
    raisedWithErrorText (mutexDestroy 22) = true := by decide

/-- C7 (amended): every nonzero OS return code in the mutex /
condition-variable create-destroy-lock-unlock wrappers raises an exception
— never silently ignored; `mutexDestroy`, `mutexLock` and `mutexUnlock`
attach the system error text, while `mutexSignalCreate` and
`mutexSignalDestroy` raise `RunTimeException` without it. -/
theorem platform_failure_reporting (cc : Int) (h : cc ≠ 0) :
    mutexDestroy cc = .raised (some cc) ∧
    mutexLock cc = .raised (some cc) ∧
    mutexUnlock cc = .raised (some cc) ∧
    mutexSignalCreate cc = .raised none ∧
    mutexSignalDestroy cc = .raised none := by
  simp [mutexDestroy, mutexLock, mutexUnlock, mutexSignalCreate,
    mutexSignalDestroy, h]

/-- C7 amended-claim witness: concrete failure code `EINVAL` (22). -/
theorem platform_failure_reporting_witness :
    mutexDestroy 22 = .raised (some 22) ∧
    mutexLock 22 = .raised (some 22) ∧
    mutexUnlock 22 = .raised (some 22) ∧
    mutexSignalCreate 22 = .raised none ∧
    mutexSignalDestroy 22 = .raised none :=
  platform_failure_reporting 22 (by decide)

/-- C8: `HighResolutionTime::operator()` returns
`tv_sec * 1000000000 + tv_nsec` of the `CLOCK_MONOTONIC` reading, and
raises `RunTimeException` if and only if `clock_gettime` returned
nonzero. -/
theorem highResolutionTime_spec (gettime : Int → Int × Timespec) :
    ((gettime CLOCK_MONOTONIC).1 = 0 →
      highResolutionTime gettime =
        .ok ((gettime CLOCK_MONOTONIC).2.tv_sec * 1000000000 +
          (gettime CLOCK_MONOTONIC).2.tv_nsec)) ∧
    ((gettime CLOCK_MONOTONIC).1 ≠ 0 →
      highResolutionTime gettime = .raised none) := by
  unfold highResolutionTime
  constructor <;> intro h <;> simp [h]

/-- C8 witness: a `clock_gettime` stub returning 0 with reading
`(5 s, 7 ns)` yields the timestamp `5 * 1000000000 + 7`. -/
theorem highResolutionTime_spec_witness :
    highResolutionTime (fun _ => (0, ⟨5, 7⟩)) =
      .ok ((5 : Int) * 1000000000 + 7) :=
  (highResolutionTime_spec (fun _ => (0, ⟨5, 7⟩))).1 rfl

/-- C9: when both nanosecond components lie in `[0, 1e9)`, the computed
`timespec` deadline represents exactly `timeOut + currentEpochTime`: its
total nanoseconds equal the sum of the two inputs' total nanoseconds, and
`tv_nsec` is normalized into `[0, 1e9)`. -/
theorem timedWaitDeadline_exact (t e : Time)
    (_ht0 : 0 ≤ t.nsec) (_ht1 : t.nsec < 1000000000)
    (_he0 : 0 ≤ e.nsec) (_he1 : e.nsec < 1000000000) :
    (timedWaitDeadline t e).tv_sec * 1000000000 + (timedWaitDeadline t e).tv_nsec
      = (t.sec * 1000000000 + t.nsec) + (e.sec * 1000000000 + e.nsec) ∧
    0 ≤ (timedWaitDeadline t e).tv_nsec ∧
    (timedWaitDeadline t e).tv_nsec < 1000000000 := by
  simp only [timedWaitDeadline, Time.extractSeconds, Time.extractNanoseconds]
  refine ⟨?_, ?_, ?_⟩ <;> omega

/-- C9 witness: the deadline for `1 s 600000000 ns` past epoch
`2 s 700000000 ns` carries over into `4 s 300000000 ns` while representing
the exact sum. -/
theorem timedWaitDeadline_exact_witness :
    (timedWaitDeadline ⟨1, 600000000⟩ ⟨2, 700000000⟩).tv_sec * 1000000000 +
        (timedWaitDeadline ⟨1, 600000000⟩ ⟨2, 700000000⟩).tv_nsec
      = ((1 : Int) * 1000000000 + 600000000) +
        ((2 : Int) * 1000000000 + 700000000) ∧
    0 ≤ (timedWaitDeadline ⟨1, 600000000⟩ ⟨2, 700000000⟩).tv_nsec ∧
    (timedWaitDeadline ⟨1, 600000000⟩ ⟨2, 700000000⟩).tv_nsec < 1000000000 :=
  timedWaitDeadline_exact ⟨1, 600000000⟩ ⟨2, 700000000⟩
    (by decide) (by decide) (by decide) (by decide)

/-- C10: `alignMalloc` returns the allocated pointer when `posix_memalign`
succeeds, raises `std::bad_alloc` on `ENOMEM`, and raises
`RunTimeException` for every other nonzero return code — it never returns
a pointer on failure. -/
theorem alignMalloc_discrimination (cc : Int) (ret : Int) :
    (cc = 0 → alignMalloc cc ret = .ok ret) ∧
    (cc = ENOMEM → alignMalloc cc ret = .badAlloc) ∧
    (cc ≠ 0 → cc ≠ ENOMEM → alignMalloc cc ret = .rtException) := by
  refine ⟨fun h => ?_, fun h => ?_, fun h1 h2 => ?_⟩
  · simp [alignMalloc, h]
  · subst h
    norm_num [alignMalloc, ENOMEM]
  · simp only [ENOMEM] at h2
    simp [alignMalloc, ENOMEM, h1, h2]

/-- C10 witness: `posix_memalign` failing with `EINVAL` (22) raises
`RunTimeException`, not `bad_alloc`, and returns no pointer. -/
theorem alignMalloc_discrimination_witness :
    alignMalloc 22 99 = .rtException :=
  (alignMalloc_discrimination 22 99).2.2 (by decide) (by decide)

/-- Invalidation never touches the fresh-id counter. -/
theorem nextId_invalidate (r : RefMapper) (j : Nat) :
    (invalidate r j).nextId = r.nextId := rfl

/-- Invalidation preserves well-formedness. -/
theorem wf_invalidate (r : RefMapper) (j : Nat) (h : wf r) :
    wf (invalidate r j) := by
  intro p hp
  simp only [invalidate, List.mem_map] at hp
  obtain ⟨q, hq, hfq⟩ := hp
  have hlt := h q hq
  show p.1 < r.nextId
  by_cases hj : q.1 = j <;> simp [hj] at hfq <;> simp [← hfq] <;> omega

/-- Registration preserves well-formedness. -/
theorem wf_register (r : RefMapper) (h : wf r) :
    wf (registerActor r).1 := by
  intro p hp
  simp only [registerActor, List.mem_cons] at hp
  show p.1 < r.nextId + 1
  rcases hp with hp | hp
  · simp [hp]
  · have := h p hp
    omega

/-- Invalidating `id` makes `id` dead. -/
theorem deadAt_invalidate_self (r : RefMapper) (id : Nat) :
    deadAt (invalidate r id) id := by
  intro p hp hid
  simp only [invalidate, List.mem_map] at hp
  obtain ⟨q, hq, hfq⟩ := hp
  by_cases hj : q.1 = id
  · simp [hj] at hfq
    simp [← hfq]
  · simp [hj] at hfq
    subst hfq
    exact absurd hid hj

/-- Deadness of `id` is preserved by invalidating any id. -/
theorem deadAt_invalidate (r : RefMapper) (id j : Nat) (h : deadAt r id) :
    deadAt (invalidate r j) id := by
  intro p hp hid
  simp only [invalidate, List.mem_map] at hp
  obtain ⟨q, hq, hfq⟩ := hp
  by_cases hj : q.1 = j
  · simp [hj] at hfq
    simp [← hfq]
  · simp [hj] at hfq
    subst hfq
    exact h q hq hid

/-- Deadness of an already-allocated id is preserved by registration, since
registration only inserts a fresh id. -/
theorem deadAt_register (r : RefMapper) (id : Nat) (h : deadAt r id)
    (hid : id < r.nextId) :
    deadAt (registerActor r).1 id := by
  intro p hp hpid
  simp only [registerActor, List.mem_cons] at hp
  rcases hp with hp | hp
  · subst hp
    simp at hpid
    omega
  · exact h p hp hpid

/-- Any serialized sequence of registry operations preserves
well-formedness, allocation of `id`, and deadness of `id`. -/
theorem runOps_preserves (id : Nat) (ops : List RegOp) :
    ∀ r : RefMapper, wf r → id < r.nextId → deadAt r id →
      wf (runOps ops r) ∧ id < (runOps ops r).nextId ∧
        deadAt (runOps ops r) id := by
  induction ops with
  | nil => exact fun r h1 h2 h3 => ⟨h1, h2, h3⟩
  | cons op rest ih =>
    intro r h1 h2 h3
    have hstep : wf (applyOp r op) ∧ id < (applyOp r op).nextId ∧
        deadAt (applyOp r op) id := by
      cases op with
      | opRegister =>
        refine ⟨wf_register r h1, ?_, deadAt_register r id h3 h2⟩
        simp only [applyOp, registerActor]
        omega
      | opInvalidate j =>
        exact ⟨wf_invalidate r j h1, by simpa [applyOp, nextId_invalidate] using h2,
          deadAt_invalidate r id j h3⟩
    simpa [runOps, List.foldl_cons] using
      ih (applyOp r op) hstep.1 hstep.2.1 hstep.2.2

/-- A dead id resolves to NotFound. -/
theorem resolve_deadAt (r : RefMapper) (id : Nat) (h : deadAt r id) :
    resolve r id = .NotFound := by
  unfold resolve
  cases hfind : r.entries.find? (fun p => p.1 == id) with
  | none => simp
  | some q =>
    have hmem := List.mem_of_find?_eq_some hfind
    have hpred := List.find?_some hfind
    simp only [beq_iff_eq] at hpred
    have hflag := h q hmem hpred
    obtain ⟨k, flag⟩ := q
    simp only at hflag
    subst hflag
    simp

/-- C1: on a well-formed registry, once `invalidate(id)` of an allocated id
has completed, `resolve(id)` returns NotFound after any interleaving of
subsequent `register` / `invalidate` operations issued by any threads (the
registry's exclusion mechanism serializes them): the id is never
resurrected. -/
theorem invalidate_permanent (r : RefMapper) (id : Nat) (ops : List RegOp)
    (hwf : wf r) (hid : id < r.nextId) :
    resolve (runOps ops (invalidate r id)) id = .NotFound := by
  have h := runOps_preserves id ops (invalidate r id)
    (wf_invalidate r id hwf)
    (by simpa [nextId_invalidate] using hid)
    (deadAt_invalidate_self r id)
  exact resolve_deadAt _ id h.2.2

/-- C1 witness: in a registry holding live ids 0 and 1, after
`invalidate 0` and a later register, invalidate and register, id 0 still
resolves to NotFound. -/
theorem invalidate_permanent_witness :
    resolve
      (runOps [RegOp.opRegister, RegOp.opInvalidate 1, RegOp.opRegister]
        (invalidate (⟨2, [(1, true), (0, true)]⟩ : RefMapper) 0)) 0
      = .NotFound :=
  invalidate_permanent ⟨2, [(1, true), (0, true)]⟩ 0
    [RegOp.opRegister, RegOp.opInvalidate 1, RegOp.opRegister]
    (by unfold wf; decide) (by decide)

/-- Delivering events appends them to the pending queue in order and never
touches the handled trace. -/
theorem deliverAll_pending (es : List Nat) :
    ∀ m : Mailbox, deliverAll m es = ⟨m.pending ++ es, m.handled⟩ := by
  induction es with
  | nil => intro m; simp [deliverAll]
  | cons e rest ih =>
    intro m
    simp [deliverAll, List.foldl_cons, deliver] at *
    simpa using ih ⟨m.pending ++ [e], m.handled⟩

/-- `n` calls to `processOne` execute the handlers of the first `n` pending
events in queue order. -/
theorem processN_handled (n : Nat) :
    ∀ m : Mailbox, (processN m n).handled = m.handled ++ m.pending.take n := by
  induction n with
  | zero => intro m; simp [processN]
  | succ k ih =>
    intro m
    cases hpend : m.pending with
    | nil =>
      have h1 : (processOne m).1 = m := by
        simp [processOne, hpend]
      simp [processN, h1, ih m, hpend]
    | cons e rest =>
      have h1 : (processOne m).1 = ⟨rest, m.handled ++ [e]⟩ := by
        simp [processOne, hpend]
      simp [processN, h1, ih ⟨rest, m.handled ++ [e]⟩, hpend]

/-- C3: for every sequence of events enqueued to a single actor, repeated
`processOne` calls execute the handlers in exactly enqueue order — after
`n` calls exactly the first `n` enqueued events have been handled, and
after one call per event the whole sequence has been handled in order. -/
theorem processOne_fifo (es : List Nat) (n : Nat) :
    (processN (deliverAll Mailbox.empty es) n).handled = es.take n ∧
    (processN (deliverAll Mailbox.empty es) es.length).handled = es := by
  have hdel := deliverAll_pending es Mailbox.empty
  constructor
  · rw [hdel, processN_handled]
    simp [Mailbox.empty]
  · rw [hdel, processN_handled]
    simp [Mailbox.empty]

/-- Invalidating a batch of ids preserves deadness of any id. -/
theorem invAll_deadAt_pres (ids : List Nat) :
    ∀ (r : RefMapper) (id : Nat), deadAt r id → deadAt (invAll r ids) id := by
  induction ids with
  | nil => exact fun _ _ h => h
  | cons j rest ih =>
    intro r id h
    simpa [invAll, List.foldl_cons] using
      ih (invalidate r j) id (deadAt_invalidate r id j h)

/-- Invalidating a batch of ids makes each of them dead. -/
theorem invAll_deadAt_mem (ids : List Nat) :
    ∀ (r : RefMapper) (id : Nat), id ∈ ids → deadAt (invAll r ids) id := by
  induction ids with
  | nil =>
    intro r id h
    cases h
  | cons j rest ih =>
    intro r id h
    rcases List.mem_cons.mp h with h | h
    · subst h
      simpa [invAll, List.foldl_cons] using
        invAll_deadAt_pres rest (invalidate r id) id (deadAt_invalidate_self r id)
    · simpa [invAll, List.foldl_cons] using ih (invalidate r j) id h

/-- The drain fold over a list of Workers preserves deadness of any id. -/
theorem drainFold_deadAt_pres (ws : List Worker) :
    ∀ (r : RefMapper) (id : Nat), deadAt r id →
      deadAt (ws.foldl (fun r w => invAll r w.actors) r) id := by
  induction ws with
  | nil => exact fun _ _ h => h
  | cons w rest ih =>
    intro r id h
    simpa [List.foldl_cons] using
      ih (invAll r w.actors) id (invAll_deadAt_pres w.actors r id h)

/-- The drain fold makes every actor id owned by any listed Worker dead. -/
theorem drainFold_deadAt_mem (ws : List Worker) :
    ∀ (r : RefMapper) (w : Worker) (id : Nat), w ∈ ws → id ∈ w.actors →
      deadAt (ws.foldl (fun r w => invAll r w.actors) r) id := by
  induction ws with
  | nil =>
    intro r w id hw
    cases hw
  | cons w0 rest ih =>
    intro r w id hw hid
    rcases List.mem_cons.mp hw with h | h
    · subst h
      simpa [List.foldl_cons] using
        drainFold_deadAt_pres rest (invAll r w.actors) id
          (invAll_deadAt_mem w.actors r id hid)
    · simpa [List.foldl_cons] using ih (invAll r w0.actors) w id h hid

/-- Over stopped Workers owning no actors, the drain fold is the
identity. -/
theorem stopFold_id (ws : List Worker) :
    ∀ r : RefMapper,
      (ws.map (fun _ => (⟨WState.Stopped, []⟩ : Worker))).foldl
        (fun r w => invAll r w.actors) r = r := by
  induction ws with
  | nil => exact fun _ => rfl
  | cons w rest ih =>
    intro r
    simpa [List.foldl_cons, invAll] using ih r

/-- C4: when `Engine.stop()` returns, every Worker has reached `Stopped`
(thread terminated), every actor id owned by any Worker has been
invalidated during the drain — it resolves to NotFound — and the destroyed
registry holds no entries; a second `stop()` leaves this final state
unchanged (idempotence). -/
theorem stopEngine_spec (e : Engine) :
    (∀ w ∈ (stopEngine e).workers, w.wstate = WState.Stopped) ∧
    (stopEngine e).registry.entries = [] ∧
    (∀ w ∈ e.workers, ∀ id ∈ w.actors,
      resolve (drainRegistry e) id = .NotFound) ∧
    stopEngine (stopEngine e) = stopEngine e := by
  refine ⟨?_, rfl, ?_, ?_⟩
  · intro w hw
    simp only [stopEngine, List.mem_map] at hw
    obtain ⟨x, _, hx⟩ := hw
    simp [← hx]
  · intro w hw id hid
    exact resolve_deadAt _ id (drainFold_deadAt_mem e.workers e.registry w id hw hid)
  · have hreg : drainRegistry (stopEngine e) = (stopEngine e).registry :=
      stopFold_id e.workers (stopEngine e).registry
    have hw : (stopEngine e).workers.map (fun _ => (⟨WState.Stopped, []⟩ : Worker))
        = (stopEngine e).workers := by
      show (e.workers.map _).map _ = e.workers.map _
      simp [List.map_map, Function.comp_def]
    calc stopEngine (stopEngine e)
        = ⟨(stopEngine e).workers.map (fun _ => ⟨WState.Stopped, []⟩),
           ⟨(drainRegistry (stopEngine e)).nextId, []⟩⟩ := rfl
      _ = ⟨(stopEngine e).workers, ⟨(stopEngine e).registry.nextId, []⟩⟩ := by
          rw [hw, hreg]
      _ = stopEngine e := rfl

/-- C4 witness: a one-Worker engine owning actors 0 and 1 — after the drain
phase of stop, actor id 0 resolves to NotFound. -/
theorem stopEngine_spec_witness :
    resolve
      (drainRegistry
        (⟨[⟨WState.Running, [0, 1]⟩], ⟨2, [(0, true), (1, true)]⟩⟩ : Engine)) 0
      = .NotFound :=
  (stopEngine_spec
    ⟨[⟨WState.Running, [0, 1]⟩], ⟨2, [(0, true), (1, true)]⟩⟩).2.2.1
    ⟨WState.Running, [0, 1]⟩ (by decide) 0 (by decide)

/-- The initial scheduler state satisfies the exclusion invariant. -/
theorem exclInv_init : ExclInv SchedState.init := by
  intro a
  exact Or.inl ⟨rfl, fun w h => Option.noConfusion h⟩

/-- Every atomic scheduler step preserves the exclusion invariant. -/
theorem exclInv_step {s s' : SchedState} (hstep : SchedStep s s')
    (hinv : ExclInv s) : ExclInv s' := by
  cases hstep with
  | spawn a0 w0 howner =>
    intro b
    rcases hinv b with ⟨hc, hex⟩ | ⟨hc, w1, hown1, hex1, huniq⟩
    · exact Or.inl ⟨hc, hex⟩
    · refine Or.inr ⟨hc, w1, ?_, hex1, huniq⟩
      show Function.update s.owner a0 (some w0) b = some w1
      by_cases hb : b = a0
      · subst hb
        rw [howner] at hown1
        cases hown1
      · rw [Function.update_noteq hb]
        exact hown1
  | beginProcess w0 a0 hown hidle =>
    intro b
    by_cases hb : b = a0
    · subst hb
      rcases hinv b with ⟨hc, hex⟩ | ⟨hc, w1, hown1, hex1, huniq⟩
      · refine Or.inr ⟨?_, w0, hown, ?_, ?_⟩
        · show Function.update s.counter b (s.counter b + 1) b = 1
          rw [Function.update_same, hc]
        · show Function.update s.executing w0 (some b) w0 = some b
          rw [Function.update_same]
        · intro w' hw'
          by_cases hww : w' = w0
          · exact hww
          · exfalso
            replace hw' : Function.update s.executing w0 (some b) w' = some b := hw'
            rw [Function.update_noteq hww] at hw'
            exact hex w' hw'
      · exfalso
        have hw10 : w1 = w0 := by
          rw [hown] at hown1
          exact (Option.some.inj hown1).symm
        rw [hw10, hidle] at hex1
        cases hex1
    · rcases hinv b with ⟨hc, hex⟩ | ⟨hc, w1, hown1, hex1, huniq⟩
      · refine Or.inl ⟨?_, ?_⟩
        · show Function.update s.counter a0 (s.counter a0 + 1) b = 0
          rw [Function.update_noteq hb]
          exact hc
        · intro w'
          by_cases hww : w' = w0
          · subst hww
            show Function.update s.executing w' (some a0) w' ≠ some b
            rw [Function.update_same]
            intro hcon
            exact hb (Option.some.inj hcon).symm
          · show Function.update s.executing w0 (some a0) w' ≠ some b
            rw [Function.update_noteq hww]
            exact hex w'
      · refine Or.inr ⟨?_, w1, hown1, ?_, ?_⟩
        · show Function.update s.counter a0 (s.counter a0 + 1) b = 1
          rw [Function.update_noteq hb]
          exact hc
        · have hw1w0 : w1 ≠ w0 := by
            intro hcon
            rw [hcon, hidle] at hex1
            cases hex1
          show Function.update s.executing w0 (some a0) w1 = some b
          rw [Function.update_noteq hw1w0]
          exact hex1
        · intro w' hw'
          replace hw' : Function.update s.executing w0 (some a0) w' = some b := hw'
          by_cases hww : w' = w0
          · exfalso
            subst hww
            rw [Function.update_same] at hw'
            exact hb (Option.some.inj hw').symm
          · rw [Function.update_noteq hww] at hw'
            exact huniq w' hw'
  | endProcess w0 a0 hrun =>
    intro b
    by_cases hb : b = a0
    · subst hb
      rcases hinv b with ⟨hc, hex⟩ | ⟨hc, w1, hown1, hex1, huniq⟩
      · exact absurd hrun (hex w0)
      · have hw10 : w1 = w0 := (huniq w0 hrun).symm
        refine Or.inl ⟨?_, ?_⟩
        · show Function.update s.counter b (s.counter b - 1) b = 0
          rw [Function.update_same, hc]
        · intro w'
          by_cases hww : w' = w0
          · subst hww
            show Function.update s.executing w' none w' ≠ some b
            rw [Function.update_same]
            exact fun hcon => Option.noConfusion hcon
          · show Function.update s.executing w0 none w' ≠ some b
            rw [Function.update_noteq hww]
            intro hcon
            exact hww ((huniq w' hcon).trans hw10)
    · rcases hinv b with ⟨hc, hex⟩ | ⟨hc, w1, hown1, hex1, huniq⟩
      · refine Or.inl ⟨?_, ?_⟩
        · show Function.update s.counter a0 (s.counter a0 - 1) b = 0
          rw [Function.update_noteq hb]
          exact hc
        · intro w'
          by_cases hww : w' = w0
          · subst hww
            show Function.update s.executing w' none w' ≠ some b
            rw [Function.update_same]
            exact fun hcon => Option.noConfusion hcon
          · show Function.update s.executing w0 none w' ≠ some b
            rw [Function.update_noteq hww]
            exact hex w'
      · refine Or.inr ⟨?_, w1, hown1, ?_, ?_⟩
        · show Function.update s.counter a0 (s.counter a0 - 1) b = 1
          rw [Function.update_noteq hb]
          exact hc
        · have hw1w0 : w1 ≠ w0 := by
            intro hcon
            rw [hcon, hrun] at hex1
            exact hb (Option.some.inj hex1).symm
          show Function.update s.executing w0 none w1 = some b
          rw [Function.update_noteq hw1w0]
          exact hex1
        · intro w' hw'
          replace hw' : Function.update s.executing w0 none w' = some b := hw'
          by_cases hww : w' = w0
          · exfalso
            subst hww
            rw [Function.update_same] at hw'
            cases hw'
          · rw [Function.update_noteq hww] at hw'
            exact huniq w' hw'

/-- Every reachable scheduler state satisfies the exclusion invariant. -/
theorem reachable_exclInv {s : SchedState} (h : Reachable s) : ExclInv s := by
  induction h with
  | base => exact exclInv_init
  | step _ hstep ih => exact exclInv_step hstep ih

/-- C2: in every reachable state of the scheduler, the per-actor
instrumentation counter incremented around `processOne` never exceeds 1 —
at every instant at most one thread is executing `processOne` for any given
actor. -/
theorem processOne_exclusive (s : SchedState) (h : Reachable s) (a : Nat) :
    s.counter a ≤ 1 := by
  rcases reachable_exclInv h a with ⟨hc, _⟩ | ⟨hc, _⟩ <;> omega

/-- C2 witness: the state reached by spawning actor 0 on Worker 0 and
letting Worker 0 begin `processOne` for it has counter at most 1. -/
theorem processOne_exclusive_witness :
    (⟨Function.update SchedState.init.owner 0 (some 0),
      Function.update SchedState.init.executing 0 (some 0),
      Function.update SchedState.init.counter 0 (SchedState.init.counter 0 + 1)⟩ :
        SchedState).counter 0 ≤ 1 :=
  processOne_exclusive _
    (Reachable.step
      (Reachable.step Reachable.base (SchedStep.spawn SchedState.init 0 0 rfl))
      (SchedStep.beginProcess _ 0 0 (by simp) rfl))
    0

end Simplx
